import Mathlib

/-!
Shallow embedding of the `express-multitenancy` library core
(`src/lib/middleware.ts`, `src/lib/strategies.ts`, `src/lib/stores.ts`)
and proofs about the spec's claims on it.

Conventions used throughout:

* A JavaScript value that may be `null`/absent is an `Option`.
* A request field that may be *unassigned* (never written, i.e. JS
  `undefined` on a plain object) is modelled as an outer `Option`:
  `none` = the middleware never assigned the field, `some v` = the field
  was assigned the (possibly null) value `v`.
* The `AsyncLocalStorage` tenant context channel is modelled the same
  way: `none` = the continuation was not wrapped in `tenantStorage.run`
  (channel unset), `some v` = the continuation runs inside
  `tenantStorage.run v` (channel seeded with `v`).
* A rejected promise / thrown error from a strategy is an explicit
  `err` constructor; the middleware's `try/catch` handling of it is
  reproduced structurally.
-/

namespace Multitenancy

/-- A tenant record (`src/lib/types.ts`): an id, a display name, and
(visible to the core only through these two fields) arbitrary extras. -/
structure Tenant where
  id : String
  name : String
  deriving DecidableEq, Repr

/-- Outcome of awaiting one strategy's `resolveTenantId(req)` promise:
it either resolves to a string-or-null, or rejects with an error
message. -/
inductive StratOutcome where
  /-- The promise resolved; `none` models JS `null`. -/
  | ok (v : Option String)
  /-- The promise rejected / the strategy threw. -/
  | err (msg : String)
  deriving DecidableEq, Repr

/-- JS truthiness of the resolved id, as tested by
`if (resolvedTenantId)` in `middleware.ts` line 97: both `null` and the
empty string are falsy. -/
def StratOutcome.adopts : StratOutcome → Bool
  | .ok (some s) => s ≠ ""
  | .ok none => false
  | .err _ => false

/-- The strategy loop of `multitenancy` (`middleware.ts` lines 92-105):
try each strategy in array order; a truthy resolved value is adopted and
the loop breaks; a falsy value or a caught error moves on to the next
strategy. -/
def resolveTenantIdChain : List StratOutcome → Option String
  | [] => none
  | o :: rest =>
    match o with
    | .ok (some s) => if s = "" then resolveTenantIdChain rest else some s
    | .ok none => resolveTenantIdChain rest
    | .err _ => resolveTenantIdChain rest

/-- How many strategies the loop actually invokes (`await
strategy.resolveTenantId(req)` evaluations): every strategy up to and
including the first adopting one, or all of them when none adopts. -/
def invokedCount : List StratOutcome → Nat
  | [] => 0
  | o :: rest => 1 + (if o.adopts then 0 else invokedCount rest)

/-- Result of awaiting the store's `getById(tenantId)` promise. -/
inductive StoreResult (T : Type) where
  /-- Resolved with a (truthy) tenant record. -/
  | found (t : T)
  /-- Resolved with `null` (or another falsy value): `if (!tenant)`. -/
  | notFound
  /-- Rejected: the `catch` block of `middleware.ts` lines 137-141. -/
  | errored (msg : String)
  deriving DecidableEq, Repr

/-- Configuration of one middleware run, specialised to one request:
the per-strategy outcomes this request produces (in configured array
order), the store's behaviour on each id, and whether an
`onTenantNotFound` handler was configured. -/
structure MWConfig (T : Type) where
  strategies : List StratOutcome
  store : String → StoreResult T
  hasNotFoundHandler : Bool

/-- Observable result of one middleware run. -/
structure MWResult (T : Type) where
  /-- `req.tenant`: `none` = the middleware never assigned the field
  (it stays JS-`undefined`), `some none` = assigned `null`,
  `some (some t)` = assigned the record `t`. -/
  reqTenant : Option (Option T)
  /-- Context channel as seen by the continuation: `none` = `next` was
  not wrapped in `tenantStorage.run` at all (channel unset),
  `some v` = `next` runs inside `tenantStorage.run v`. -/
  channel : Option (Option String)
  /-- Whether the middleware itself invoked `next`. -/
  nextInvoked : Bool
  /-- `some id` iff `onTenantNotFound(req, res, next, id)` was invoked. -/
  handlerCall : Option String
  /-- Number of strategies whose `resolveTenantId` was invoked. -/
  invoked : Nat
  deriving DecidableEq, Repr

/-- The body of the middleware returned by `multitenancy(options)`
(`middleware.ts` lines 89-142), one request, end to end. -/
def runMultitenancy {T : Type} (cfg : MWConfig T) : MWResult T :=
  match resolveTenantIdChain cfg.strategies with
  | none =>
    -- lines 108-112: no tenant ID found
    ⟨some none, some none, true, none, invokedCount cfg.strategies⟩
  | some tid =>
    match cfg.store tid with
    | .errored _ =>
      -- lines 137-141: store lookup rejected
      ⟨some none, some none, true, none, invokedCount cfg.strategies⟩
    | .notFound =>
      if cfg.hasNotFoundHandler then
        -- lines 122-124: delegate entirely to the handler and return
        ⟨none, none, false, some tid, invokedCount cfg.strategies⟩
      else
        -- lines 126-128: continue with null tenant
        ⟨some none, some none, true, none, invokedCount cfg.strategies⟩
    | .found t =>
      -- lines 131-136: tenant found
      ⟨some (some t), some (some tid), true, none, invokedCount cfg.strategies⟩

/-! ### JavaScript string primitives

The strategies use `String.prototype.split`, `startsWith`, `indexOf`,
`substring` and `Array.prototype.join`. They are modelled here over
`List Char` (Lean's own `String.splitOn` etc. have byte-level
implementations that the kernel cannot evaluate, and their semantics
are Lean's, not JavaScript's). -/

/-- `str.split(sep)` for a one-character separator, JS semantics:
`"".split('/') = [""]`, `"/a".split('/') = ["", "a"]`. -/
def splitOnChar (sep : Char) : List Char → List (List Char)
  | [] => [[]]
  | c :: rest =>
    let r := splitOnChar sep rest
    if c = sep then [] :: r
    else
      match r with
      | [] => [[c]]
      | s :: ss => (c :: s) :: ss

/-- `Array.prototype.join(sep)` for a one-character separator. -/
def joinWithChar (sep : Char) : List (List Char) → List Char
  | [] => []
  | [s] => s
  | s :: rest => s ++ sep :: joinWithChar sep rest

/-- `haystack.indexOf(needle)`: index of the first occurrence, `none`
for JS `-1`. -/
def indexOfSub : List Char → List Char → Option Nat
  | [], n => if n.isPrefixOf [] then some 0 else none
  | c :: rest, n =>
    if n.isPrefixOf (c :: rest) then some 0
    else (indexOfSub rest n).map (· + 1)

/-! ### BasePathStrategy (`src/lib/strategies.ts` lines 163-238) -/

/-- Options for BasePathStrategy; the constructor defaults are
`position = 1`, `rebasePath = false`. -/
structure BasePathOptions where
  rebasePath : Bool
  position : Int
  deriving Repr

/-- The slice of the Express request BasePathStrategy reads and
rewrites. -/
structure BPRequest where
  path : String
  originalUrl : String
  deriving DecidableEq, Repr

/-- `path.split('/').filter(segment => segment.length > 0)`
(`strategies.ts` line 191). -/
def pathSegments (path : String) : List String :=
  ((splitOnChar '/' path.data).filter (fun s => s.length > 0)).map String.mk

/-- `segments.length > index ? segments[index] : null`
(`strategies.ts` line 197): JS indexing with a negative index yields
`undefined`, modelled as `none` like `null`. -/
def segmentAtJS (segments : List String) (index : Int) : Option String :=
  if index < (segments.length : Int) then
    if 0 ≤ index then segments.get? index.toNat else none
  else none

/-- The rebased path: tenant segment spliced out, remaining segments
re-joined with `'/'` and prefixed with `'/'` (`strategies.ts` lines
203-205). -/
def rebasedPath (path : String) (idx : Nat) : String :=
  ⟨'/' :: joinWithChar '/' (((pathSegments path).eraseIdx idx).map String.data)⟩

/-- The `originalUrl` rewrite (`strategies.ts` lines 218-233): replace
the first occurrence of `path` inside `originalUrl` by `newPath`; if
`path` does not occur, `originalUrl` is left untouched. -/
def rebaseUrl (originalUrl path newPath : String) : String :=
  match indexOfSub originalUrl.data path.data with
  | none => originalUrl
  | some i =>
    ⟨originalUrl.data.take i ++ newPath.data
      ++ originalUrl.data.drop (i + path.data.length)⟩

/-- The request after the rebase side effect. -/
def rebaseRequest (opts : BasePathOptions) (req : BPRequest) : BPRequest :=
  ⟨rebasedPath req.path (opts.position - 1).toNat,
   rebaseUrl req.originalUrl req.path (rebasedPath req.path (opts.position - 1).toNat)⟩

/-- `BasePathStrategy.resolveTenantId` (`strategies.ts` lines 186-237):
returns the resolved id and the (possibly rewritten) request. -/
def basePathResolveTenantId (opts : BasePathOptions) (req : BPRequest) :
    Option String × BPRequest :=
  if req.path = "" then (none, req)
  else
    match segmentAtJS (pathSegments req.path) (opts.position - 1) with
    | none => (none, req)
    | some tid =>
      if opts.rebasePath then (some tid, rebaseRequest opts req)
      else (some tid, req)

/-- Spec-side reformulation for claim C1: the first non-null, non-empty
resolved value among the strategies' results, in array order, ignoring
errors. -/
def firstNonEmptyOk (outs : List StratOutcome) : Option String :=
  (outs.filterMap fun o =>
    match o with
    | .ok (some s) => if s = "" then none else some s
    | _ => none).head?

/-- Index of the first adopting strategy, if any. -/
def firstAdoptIdx : List StratOutcome → Option Nat
  | [] => none
  | o :: rest => if o.adopts then some 0 else (firstAdoptIdx rest).map (· + 1)

/-! ### ClaimStrategy (`src/lib/strategies.ts` lines 284-370) -/

/-- A JavaScript value, as far as claim-payload traversal observes it. -/
inductive JSValue where
  | vNull
  | vUndefined
  | vStr (s : String)
  | vNum (n : Int)
  | vBool (b : Bool)
  | vObj (fields : List (String × JSValue))
  | vArr (elems : List JSValue)

/-- `value == null` (JS abstract equality with null: true exactly for
`null` and `undefined`). -/
def JSValue.isNullish : JSValue → Bool
  | .vNull => true
  | .vUndefined => true
  | _ => false

/-- `typeof value === 'object'` (true for `null` as well, though the
code's `== null` test always fires first). -/
def JSValue.isObjectTypeof : JSValue → Bool
  | .vNull => true
  | .vObj _ => true
  | .vArr _ => true
  | _ => false

/-- JS falsiness, as tested by `if (!payload)` and `if (!obj || !path)`. -/
def JSValue.isFalsy : JSValue → Bool
  | .vNull => true
  | .vUndefined => true
  | .vStr s => s = ""
  | .vNum n => n = 0
  | .vBool b => !b
  | .vObj _ => false
  | .vArr _ => false

mutual

/-- `value.toString()`: identity on strings, decimal on numbers,
`"[object Object]"` on plain objects, comma-join on arrays (where
null/undefined elements join as empty strings). -/
def JSValue.toStringJS : JSValue → String
  | .vNull => ""
  | .vUndefined => ""
  | .vStr s => s
  | .vNum n => toString n
  | .vBool true => "true"
  | .vBool false => "false"
  | .vObj _ => "[object Object]"
  | .vArr es => ⟨joinWithChar ',' (JSValue.toStringDataList es)⟩

/-- Element strings of an array (as `List Char`s, for the join). -/
def JSValue.toStringDataList : List JSValue → List (List Char)
  | [] => []
  | v :: rest => (JSValue.toStringJS v).data :: JSValue.toStringDataList rest

end

/-- A canonical array index key: `"0"`, `"12"`, ... (no leading zeros). -/
def parseNatKey (cs : List Char) : Option Nat :=
  if cs = [] then none
  else if cs.all (fun c => c.isDigit) then
    if cs ≠ ['0'] ∧ cs.head? = some '0' then none
    else some (cs.foldl (fun n c => n * 10 + (c.toNat - 48)) 0)
  else none

/-- `current[part]`: object property lookup (missing key gives
`undefined`), array lookup by canonical index key, `undefined` on
everything else. -/
def JSValue.getField : JSValue → String → JSValue
  | .vObj fields, key =>
    match fields.find? (fun p => p.1 == key) with
    | some p => p.2
    | none => .vUndefined
  | .vArr es, key =>
    match parseNatKey key.data with
    | some i => (es.get? i).getD .vUndefined
    | none => .vUndefined
  | _, _ => .vUndefined

/-- The `for (const part of parts)` loop of
`ClaimStrategy.getNestedProperty` plus the final
`current?.toString() || null` coercion (`strategies.ts` lines
357-368). -/
def walkPath : JSValue → List String → Option String
  | current, [] =>
    if current.isNullish then none
    else if current.toStringJS = "" then none
    else some current.toStringJS
  | current, part :: rest =>
    if current.isNullish || !current.isObjectTypeof then none
    else walkPath (current.getField part) rest

/-- `ClaimStrategy.getNestedProperty` (`strategies.ts` lines 354-369). -/
def getNestedProperty (obj : JSValue) (path : String) : Option String :=
  if obj.isFalsy || path = "" then none
  else walkPath obj ((splitOnChar '.' path.data).map String.mk)

/-- `ClaimStrategy.resolveTenantId` (`strategies.ts` lines 308-323),
with the payload extractor (the configured `authExtractor` or the
default one) abstracted as a function of the request. -/
def claimResolveTenantId {Req : Type} (extractor : Req → JSValue)
    (claimPath : String) (req : Req) : Option String :=
  if (extractor req).isFalsy then none
  else getNestedProperty (extractor req) claimPath

/-- The slice of the request the default extractor reads. -/
structure ClaimRequest where
  authorization : Option String
  deriving DecidableEq, Repr

/-- `ClaimStrategy.defaultAuthExtractor` (`strategies.ts` lines
329-349). `decodeBase64Json` abstracts
`JSON.parse(Buffer.from(seg, 'base64').toString('utf8'))` — Node
stdlib, external to this repository — returning `none` when either
step throws; the surrounding `try/catch` turns any throw (including
`token.split('.')[1]` being `undefined`) into a `null` payload. -/
def defaultAuthExtractor (decodeBase64Json : String → Option JSValue)
    (req : ClaimRequest) : JSValue :=
  match req.authorization with
  | none => .vNull
  | some h =>
    if !("Bearer ".data.isPrefixOf h.data) then .vNull
    else
      match ((splitOnChar ' ' h.data).map String.mk).get? 1 with
      | none => .vNull
      | some token =>
        if token = "" then .vNull
        else
          match ((splitOnChar '.' token.data).map String.mk).get? 1 with
          | none => .vNull
          | some seg => (decodeBase64Json seg).getD .vNull

/-- Spec-side for C9: "the final traversed value" of the dot path —
`none` when an intermediate step is nullish or not of object type. -/
def traverseClaim : JSValue → List String → Option JSValue
  | v, [] => some v
  | v, part :: rest =>
    if v.isNullish || !v.isObjectTypeof then none
    else traverseClaim (v.getField part) rest

theorem isPrefixOf_eq_append (n l : List Char) (h : n.isPrefixOf l) :
    l = n ++ l.drop n.length := by
  rw [ List.isPrefixOf_iff_prefix] at h
  obtain ⟨t, ht⟩ := h
  subst ht
  rw [List.drop_left]

/-- `indexOf` really locates the needle: the haystack decomposes as
(prefix of length `i`) ++ needle ++ (rest). -/
theorem indexOfSub_spec (h n : List Char) (i : Nat)
    (hfind : indexOfSub h n = some i) :
    h = h.take i ++ n ++ h.drop (i + n.length) := by
  induction h generalizing i with
  | nil =>
    unfold indexOfSub at hfind
    by_cases hp : n.isPrefixOf ([] : List Char)
    · rw [if_pos hp] at hfind
      obtain rfl : (0 : Nat) = i := Option.some.injEq _ _ ▸ hfind
      simpa using isPrefixOf_eq_append n [] hp
    · rw [if_neg hp] at hfind
      exact Option.noConfusion hfind
  | cons c rest ih =>
    unfold indexOfSub at hfind
    by_cases hp : n.isPrefixOf (c :: rest)
    · rw [if_pos hp] at hfind
      obtain rfl : (0 : Nat) = i := Option.some.injEq _ _ ▸ hfind
      simpa using isPrefixOf_eq_append n (c :: rest) hp
    · rw [if_neg hp] at hfind
      cases hrec : indexOfSub rest n with
      | none => rw [hrec] at hfind; exact Option.noConfusion hfind
      | some j =>
        rw [hrec] at hfind
        obtain rfl : j + 1 = i := by simpa using hfind
        have hdec := ih j hrec
        calc c :: rest = c :: (rest.take j ++ n ++ rest.drop (j + n.length)) := by
              rw [← hdec]
          _ = (c :: rest).take (j + 1) ++ n ++ (c :: rest).drop (j + 1 + n.length) := by
              simp only [List.take_succ_cons, List.cons_append]
              have hh : j + 1 + n.length = (j + n.length) + 1 := by omega
              rw [hh, List.drop_succ_cons]

theorem resolveTenantIdChain_eq_firstNonEmptyOk (outs : List StratOutcome) :
    resolveTenantIdChain outs = firstNonEmptyOk outs := by
  induction outs with
  | nil => rfl
  | cons o rest ih =>
    cases o with
    | ok v =>
      cases v with
      | none => simpa [resolveTenantIdChain, firstNonEmptyOk] using ih
      | some s =>
        by_cases hs : s = ""
        · simpa [resolveTenantIdChain, firstNonEmptyOk, hs] using ih
        · simp [resolveTenantIdChain, firstNonEmptyOk, hs]
    | err m => simpa [resolveTenantIdChain, firstNonEmptyOk] using ih

/-- The loop stops exactly at the first adopting strategy: when strategy
`i` is the first one that adopts, exactly `i + 1` strategies are
invoked; when none adopts, all are invoked. -/
theorem invokedCount_eq_firstAdoptIdx (outs : List StratOutcome) :
    invokedCount outs =
      match firstAdoptIdx outs with
      | some i => i + 1
      | none => outs.length := by
  induction outs with
  | nil => rfl
  | cons o rest ih =>
    by_cases h : o.adopts
    · simp [invokedCount, firstAdoptIdx, h]
    · rw [invokedCount, if_neg h, ih]
      rw [firstAdoptIdx, if_neg h]
      cases hfi : firstAdoptIdx rest with
      | none => show 1 + rest.length = rest.length + 1; omega
      | some i => show 1 + (i + 1) = i + 1 + 1; omega

theorem firstAdoptIdx_cons_eq_none {o : StratOutcome} {rest : List StratOutcome}
    (h : firstAdoptIdx (o :: rest) = none) :
    o.adopts = false ∧ firstAdoptIdx rest = none := by
  by_cases ha : o.adopts
  · simp [firstAdoptIdx, ha] at h
  · refine ⟨by simpa using ha, ?_⟩
    simp only [firstAdoptIdx, if_neg ha] at h
    cases hfi : firstAdoptIdx rest with
    | none => rfl
    | some i => rw [hfi] at h; simp at h

theorem resolveTenantIdChain_eq_none_of_noAdopt :
    ∀ outs : List StratOutcome, firstAdoptIdx outs = none →
      resolveTenantIdChain outs = none := by
  intro outs
  induction outs with
  | nil => intro _; rfl
  | cons o rest ih =>
    intro h
    obtain ⟨ha, hrest⟩ := firstAdoptIdx_cons_eq_none h
    cases o with
    | ok v =>
      cases v with
      | none => exact ih hrest
      | some s =>
        simp [StratOutcome.adopts] at ha
        simp [resolveTenantIdChain, ha, ih hrest]
    | err m => exact ih hrest

theorem resolveTenantIdChain_append (xs ys : List StratOutcome) :
    resolveTenantIdChain (xs ++ ys) =
      match resolveTenantIdChain xs with
      | some s => some s
      | none => resolveTenantIdChain ys := by
  induction xs with
  | nil => rfl
  | cons o rest ih =>
    cases o with
    | ok v =>
      cases v with
      | none => simpa [resolveTenantIdChain] using ih
      | some s =>
        by_cases hs : s = "" <;> simp [resolveTenantIdChain, hs, ih]
    | err m => simpa [resolveTenantIdChain] using ih

theorem invokedCount_append_of_noAdopt (xs ys : List StratOutcome)
    (h : firstAdoptIdx xs = none) :
    invokedCount (xs ++ ys) = xs.length + invokedCount ys := by
  induction xs with
  | nil => simp [invokedCount]
  | cons o rest ih =>
    obtain ⟨ha, hrest⟩ := firstAdoptIdx_cons_eq_none h
    have ha' : ¬ o.adopts = true := by simp [ha]
    calc invokedCount ((o :: rest) ++ ys)
        = 1 + invokedCount (rest ++ ys) := by
          simp [List.cons_append, invokedCount, ha']
      _ = 1 + (rest.length + invokedCount ys) := by rw [ih hrest]
      _ = (o :: rest).length + invokedCount ys := by
          rw [List.length_cons]; omega

theorem runMultitenancy_invoked {T : Type} (cfg : MWConfig T) :
    (runMultitenancy cfg).invoked = invokedCount cfg.strategies := by
  unfold runMultitenancy
  split
  · rfl
  · split
    · rfl
    · split <;> rfl
    · rfl

/-- C1: for every configured strategy chain and every request, the
identifier adopted by the middleware equals the first non-null,
non-empty result produced in array order; exactly the strategies up to
and including the first match are invoked (so strategies after the first
match are never invoked); and the number of strategies invoked does not
depend on the store at all — in particular there is no fallback to a
later strategy when the matched identifier fails the store lookup. -/
theorem claim_C1_first_match_wins {T : Type} (outs : List StratOutcome)
    (store store' : String → StoreResult T) (hh hh' : Bool) :
    resolveTenantIdChain outs = firstNonEmptyOk outs
    ∧ invokedCount outs =
        (match firstAdoptIdx outs with
         | some i => i + 1
         | none => outs.length)
    ∧ (runMultitenancy ⟨outs, store, hh⟩).invoked
        = (runMultitenancy ⟨outs, store', hh'⟩).invoked := by
  refine ⟨resolveTenantIdChain_eq_firstNonEmptyOk outs,
    invokedCount_eq_firstAdoptIdx outs, ?_⟩
  rw [runMultitenancy_invoked, runMultitenancy_invoked]

/-- C2: when some strategy yields an identifier and the store resolves
it to a record, the middleware assigns exactly that record to
`req.tenant`, seeds the context channel with the identifier string, and
invokes the continuation inside that seeded context. -/
theorem claim_C2_store_hit {T : Type} (cfg : MWConfig T) (tid : String) (t : T)
    (hres : resolveTenantIdChain cfg.strategies = some tid)
    (hstore : cfg.store tid = .found t) :
    (runMultitenancy cfg).reqTenant = some (some t)
    ∧ (runMultitenancy cfg).channel = some (some tid)
    ∧ (runMultitenancy cfg).nextInvoked = true := by
  unfold runMultitenancy
  simp [hres, hstore]

/-- C2 witness at a concrete input. -/
theorem claim_C2_store_hit_witness :
    (runMultitenancy ⟨[.ok (some "tenant1")],
        fun _ => .found (⟨"tenant1", "Tenant One"⟩ : Tenant), false⟩).reqTenant
      = some (some ⟨"tenant1", "Tenant One"⟩)
    ∧ (runMultitenancy ⟨[.ok (some "tenant1")],
        fun _ => .found (⟨"tenant1", "Tenant One"⟩ : Tenant), false⟩).channel
      = some (some "tenant1")
    ∧ (runMultitenancy ⟨[.ok (some "tenant1")],
        fun _ => .found (⟨"tenant1", "Tenant One"⟩ : Tenant), false⟩).nextInvoked
      = true :=
  claim_C2_store_hit
    ⟨[.ok (some "tenant1")], fun _ => .found (⟨"tenant1", "Tenant One"⟩ : Tenant), false⟩
    "tenant1" ⟨"tenant1", "Tenant One"⟩ (by decide) rfl

/-- C3 counterexample: with an *empty* strategies list the middleware
does NOT leave `req.tenant` unset, and does NOT leave the context
channel unset: it assigns `null` to `req.tenant` and runs the
continuation inside `tenantStorage.run(null, ...)` (`middleware.ts`
lines 108-112 make no distinction between "zero strategies" and "no
strategy matched"). -/
theorem claim_C3_empty_strategies_counterexample :
    (runMultitenancy ⟨([] : List StratOutcome),
        fun _ => StoreResult.notFound (T := Tenant), false⟩).reqTenant = some none
    ∧ (runMultitenancy ⟨([] : List StratOutcome),
        fun _ => StoreResult.notFound (T := Tenant), false⟩).channel = some none
    ∧ ¬ ((runMultitenancy ⟨([] : List StratOutcome),
          fun _ => StoreResult.notFound (T := Tenant), false⟩).reqTenant = none
        ∧ (runMultitenancy ⟨([] : List StratOutcome),
          fun _ => StoreResult.notFound (T := Tenant), false⟩).channel = none) := by
  refine ⟨rfl, rfl, ?_⟩
  intro h
  exact Option.noConfusion (h.1.symm.trans rfl)

/-- C3 amended: for every request processed with an empty strategies
list, the middleware assigns `null` to the request's tenant field,
seeds the context channel with `null` (not "unset"), and invokes the
continuation inside that seeded context; no strategy is invoked and the
not-found handler is never called. -/
theorem claim_C3_empty_strategies_amended {T : Type}
    (store : String → StoreResult T) (hh : Bool) :
    runMultitenancy ⟨[], store, hh⟩ =
      ⟨some none, some none, true, none, 0⟩ := rfl

/-- C4: when an identifier was found and the store's `getById` either
rejects, or resolves `null` while no `onTenantNotFound` handler is
configured, the middleware assigns `null` to `req.tenant`, seeds the
context channel with `null`, and invokes the continuation; the handler
is not called and no failure is surfaced (the run completes in the
`continue` outcome). -/
theorem claim_C4_store_miss_continues {T : Type} (cfg : MWConfig T) (tid : String)
    (hres : resolveTenantIdChain cfg.strategies = some tid)
    (hmiss : (∃ m, cfg.store tid = .errored m)
      ∨ (cfg.store tid = .notFound ∧ cfg.hasNotFoundHandler = false)) :
    (runMultitenancy cfg).reqTenant = some none
    ∧ (runMultitenancy cfg).channel = some none
    ∧ (runMultitenancy cfg).nextInvoked = true
    ∧ (runMultitenancy cfg).handlerCall = none := by
  rcases hmiss with ⟨m, herr⟩ | ⟨hnf, hnh⟩
  · unfold runMultitenancy
    simp [hres, herr]
  · unfold runMultitenancy
    simp [hres, hnf, hnh]

/-- C4 witness at a concrete input (rejecting store). -/
theorem claim_C4_store_miss_continues_witness :
    (runMultitenancy ⟨[.ok (some "tenant1")],
        fun _ => StoreResult.errored (T := Tenant) "db down", true⟩).reqTenant = some none
    ∧ (runMultitenancy ⟨[.ok (some "tenant1")],
        fun _ => StoreResult.errored (T := Tenant) "db down", true⟩).channel = some none
    ∧ (runMultitenancy ⟨[.ok (some "tenant1")],
        fun _ => StoreResult.errored (T := Tenant) "db down", true⟩).nextInvoked = true
    ∧ (runMultitenancy ⟨[.ok (some "tenant1")],
        fun _ => StoreResult.errored (T := Tenant) "db down", true⟩).handlerCall = none :=
  claim_C4_store_miss_continues
    ⟨[.ok (some "tenant1")], fun _ => StoreResult.errored "db down", true⟩
    "tenant1" (by decide) (Or.inl ⟨"db down", rfl⟩)

/-- C5: when an identifier was found, the store resolves `null`, and an
`onTenantNotFound` handler is configured, the middleware invokes the
handler with the unresolved identifier and does not itself invoke the
continuation. -/
theorem claim_C5_handler_invoked {T : Type} (cfg : MWConfig T) (tid : String)
    (hres : resolveTenantIdChain cfg.strategies = some tid)
    (hnf : cfg.store tid = .notFound)
    (hh : cfg.hasNotFoundHandler = true) :
    (runMultitenancy cfg).handlerCall = some tid
    ∧ (runMultitenancy cfg).nextInvoked = false := by
  unfold runMultitenancy
  simp [hres, hnf, hh]

/-- C5 witness at a concrete input. -/
theorem claim_C5_handler_invoked_witness :
    (runMultitenancy ⟨[.ok (some "ghost")],
        fun _ => StoreResult.notFound (T := Tenant), true⟩).handlerCall = some "ghost"
    ∧ (runMultitenancy ⟨[.ok (some "ghost")],
        fun _ => StoreResult.notFound (T := Tenant), true⟩).nextInvoked = false :=
  claim_C5_handler_invoked
    ⟨[.ok (some "ghost")], fun _ => StoreResult.notFound, true⟩
    "ghost" (by decide) rfl rfl

/-- C6 counterexample: in the branch where the not-found callback is
invoked, `req.tenant` is NOT `null` when the callback fires — the
middleware returns at `middleware.ts` line 123 before the
`req.tenant = null` assignment on line 127 ever runs, so the field is
still unassigned (JS `undefined`). -/
theorem claim_C6_tenant_null_at_callback_counterexample :
    (runMultitenancy ⟨[.ok (some "ghost")],
        fun _ => StoreResult.notFound (T := Tenant), true⟩).handlerCall = some "ghost"
    ∧ (runMultitenancy ⟨[.ok (some "ghost")],
        fun _ => StoreResult.notFound (T := Tenant), true⟩).reqTenant ≠ some none
    ∧ (runMultitenancy ⟨[.ok (some "ghost")],
        fun _ => StoreResult.notFound (T := Tenant), true⟩).reqTenant = none := by
  refine ⟨rfl, ?_, rfl⟩
  intro h
  exact Option.noConfusion h

/-- C6 amended: in the terminal outcome where the not-found callback is
invoked, the middleware has never assigned the request's tenant field —
at the moment the callback fires the field is still unset (JS
`undefined`), not `null`. -/
theorem claim_C6_tenant_unset_at_callback {T : Type} (cfg : MWConfig T) (tid : String)
    (hres : resolveTenantIdChain cfg.strategies = some tid)
    (hnf : cfg.store tid = .notFound)
    (hh : cfg.hasNotFoundHandler = true) :
    (runMultitenancy cfg).handlerCall = some tid
    ∧ (runMultitenancy cfg).reqTenant = none := by
  unfold runMultitenancy
  simp [hres, hnf, hh]

/-- C6 amended witness at a concrete input. -/
theorem claim_C6_tenant_unset_at_callback_witness :
    (runMultitenancy ⟨[.ok (some "t9")],
        fun _ => StoreResult.notFound (T := Tenant), true⟩).handlerCall = some "t9"
    ∧ (runMultitenancy ⟨[.ok (some "t9")],
        fun _ => StoreResult.notFound (T := Tenant), true⟩).reqTenant = none :=
  claim_C6_tenant_unset_at_callback
    ⟨[.ok (some "t9")], fun _ => StoreResult.notFound, true⟩
    "t9" (by decide) rfl rfl

/-- C7: a strategy that throws/rejects does not abort resolution: the
chain's adopted identifier is the same as if the failing strategy were
absent; when no earlier strategy adopted, the strategy after the
failing one is still invoked (all of `post` is processed normally); and
when the failing strategy is the last one, the whole run ends exactly
in the "no strategy matched" outcome — continuing with null tenant and
null context, surfacing nothing. -/
theorem claim_C7_strategy_error_skipped {T : Type}
    (pre post : List StratOutcome) (m : String)
    (store : String → StoreResult T) (hh : Bool) :
    resolveTenantIdChain (pre ++ .err m :: post) = resolveTenantIdChain (pre ++ post)
    ∧ (firstAdoptIdx pre = none →
        invokedCount (pre ++ .err m :: post) = pre.length + 1 + invokedCount post)
    ∧ (firstAdoptIdx pre = none →
        runMultitenancy ⟨pre ++ [.err m], store, hh⟩ =
          ⟨some none, some none, true, none, pre.length + 1⟩) := by
  refine ⟨?_, ?_, ?_⟩
  · rw [resolveTenantIdChain_append, resolveTenantIdChain_append]
    cases resolveTenantIdChain pre with
    | none => simp [resolveTenantIdChain]
    | some s => rfl
  · intro hpre
    rw [invokedCount_append_of_noAdopt _ _ hpre]
    show pre.length + (1 + invokedCount post) = pre.length + 1 + invokedCount post
    omega
  · intro hpre
    have hchain : resolveTenantIdChain (pre ++ [.err m]) = none := by
      rw [resolveTenantIdChain_append,
        resolveTenantIdChain_eq_none_of_noAdopt pre hpre]
      rfl
    have hcnt : invokedCount (pre ++ [.err m]) = pre.length + 1 := by
      rw [invokedCount_append_of_noAdopt _ _ hpre]
      rfl
    unfold runMultitenancy
    simp only [hchain, hcnt]

/-- C7 witness at a concrete input: a null-resolving strategy, then the
failing strategy, then a matching trailing strategy; and the
last-strategy-fails run. -/
theorem claim_C7_strategy_error_skipped_witness :
    resolveTenantIdChain ([.ok none] ++ .err "boom" :: [.ok (some "t2")])
      = resolveTenantIdChain ([.ok none] ++ [.ok (some "t2")])
    ∧ invokedCount ([.ok none] ++ .err "boom" :: [.ok (some "t2")])
      = [StratOutcome.ok none].length + 1 + invokedCount [.ok (some "t2")]
    ∧ runMultitenancy ⟨[.ok none] ++ [.err "boom"],
        fun _ => StoreResult.notFound (T := Tenant), false⟩ =
        ⟨some none, some none, true, none, [StratOutcome.ok none].length + 1⟩ := by
  obtain ⟨h1, h2, h3⟩ :=
    claim_C7_strategy_error_skipped (T := Tenant) [.ok none] [.ok (some "t2")] "boom"
      (fun _ => StoreResult.notFound) false
  exact ⟨h1, h2 rfl, h3 rfl⟩

/-- C10: in the not-found-handler branch the middleware returns without
seeding the context channel at all — the handler fires with the channel
entirely unset, while every run in which the handler is not invoked has
the channel explicitly seeded (with the identifier or with null). -/
theorem claim_C10_handler_channel_unset {T : Type} (cfg : MWConfig T) (tid : String)
    (hres : resolveTenantIdChain cfg.strategies = some tid)
    (hnf : cfg.store tid = .notFound)
    (hh : cfg.hasNotFoundHandler = true) :
    (runMultitenancy cfg).channel = none
    ∧ (runMultitenancy cfg).handlerCall = some tid
    ∧ ∀ (cfg' : MWConfig T), (runMultitenancy cfg').handlerCall = none →
        (runMultitenancy cfg').channel ≠ none := by
  refine ⟨?_, ?_, ?_⟩
  · unfold runMultitenancy; simp [hres, hnf, hh]
  · unfold runMultitenancy; simp [hres, hnf, hh]
  · intro cfg' hno
    unfold runMultitenancy at hno ⊢
    revert hno
    split
    · intro _ h; exact Option.noConfusion h
    · split
      · intro _ h; exact Option.noConfusion h
      · split
        · intro hno; simp at hno
        · intro _ h; exact Option.noConfusion h
      · intro _ h; exact Option.noConfusion h

/-- C8: for every request matched by BasePathStrategy with `rebasePath`
enabled (the configured 1-based position points at an existing path
segment), the resolution adopts that segment, and rewrites the
request's perceived path to the old segment list with the matched
segment deleted exactly once (the old segments are exactly
prefix ++ matched ++ suffix and the new path joins prefix ++ suffix);
whenever the old path occurs in the full URL, the rewritten full URL is
the full URL with that one occurrence of the old path replaced by the
rewritten path — the same removal, consistently. -/
theorem claim_C8_rebase_removes_segment (opts : BasePathOptions) (req : BPRequest)
    (idx : Nat) (hreb : opts.rebasePath = true)
    (hpos : opts.position = (idx : Int) + 1)
    (hidx : idx < (pathSegments req.path).length) :
    (basePathResolveTenantId opts req).1
        = some ((pathSegments req.path).get ⟨idx, hidx⟩)
    ∧ (basePathResolveTenantId opts req).2.path = rebasedPath req.path idx
    ∧ (pathSegments req.path).eraseIdx idx
        = (pathSegments req.path).take idx ++ (pathSegments req.path).drop (idx + 1)
    ∧ pathSegments req.path
        = (pathSegments req.path).take idx
          ++ (pathSegments req.path).get ⟨idx, hidx⟩
            :: (pathSegments req.path).drop (idx + 1)
    ∧ ∀ i, indexOfSub req.originalUrl.data req.path.data = some i →
        (basePathResolveTenantId opts req).2.originalUrl.data
            = req.originalUrl.data.take i ++ (rebasedPath req.path idx).data
              ++ req.originalUrl.data.drop (i + req.path.data.length)
        ∧ req.originalUrl.data
            = req.originalUrl.data.take i ++ req.path.data
              ++ req.originalUrl.data.drop (i + req.path.data.length) := by
  have hempty : pathSegments "" = [] := by decide
  have hne : req.path ≠ "" := by
    intro h
    rw [h, hempty] at hidx
    simp at hidx
  have hseg : segmentAtJS (pathSegments req.path) (opts.position - 1)
      = some ((pathSegments req.path).get ⟨idx, hidx⟩) := by
    rw [hpos, show ((idx : Int) + 1 - 1) = (idx : Int) by ring]
    unfold segmentAtJS
    rw [if_pos (by exact_mod_cast hidx), if_pos (by positivity),
      Int.toNat_natCast]
    exact List.get?_eq_get hidx
  have hidxn : (opts.position - 1).toNat = idx := by
    rw [hpos, show ((idx : Int) + 1 - 1) = (idx : Int) by ring, Int.toNat_natCast]
  have hreq : rebaseRequest opts req =
      ⟨rebasedPath req.path idx,
       rebaseUrl req.originalUrl req.path (rebasedPath req.path idx)⟩ := by
    unfold rebaseRequest
    rw [hidxn]
  have hrun : basePathResolveTenantId opts req
      = (some ((pathSegments req.path).get ⟨idx, hidx⟩),
         ⟨rebasedPath req.path idx,
          rebaseUrl req.originalUrl req.path (rebasedPath req.path idx)⟩) := by
    unfold basePathResolveTenantId
    rw [if_neg hne, hseg, hreb]
    simp [hreq]
  refine ⟨by rw [hrun], by rw [hrun], List.eraseIdx_eq_take_drop_succ _ idx, ?_, ?_⟩
  · conv_lhs => rw [← List.take_append_drop idx (pathSegments req.path)]
    rw [List.drop_eq_getElem_cons hidx]
    rfl
  · intro i hi
    constructor
    · rw [hrun]
      show (rebaseUrl req.originalUrl req.path (rebasedPath req.path idx)).data = _
      unfold rebaseUrl
      rw [hi]
    · exact indexOfSub_spec _ _ i hi

/-- C8 witness: the spec's own example, `/tenant1/api/resources` at the
default position 1 with rebasing, segment `tenant1` removed, and an
original URL carrying a query string rewritten consistently. -/
theorem claim_C8_rebase_removes_segment_witness :
    (basePathResolveTenantId ⟨true, 1⟩
        ⟨"/tenant1/api/resources", "/tenant1/api/resources?page=2"⟩).1
      = some "tenant1"
    ∧ (basePathResolveTenantId ⟨true, 1⟩
        ⟨"/tenant1/api/resources", "/tenant1/api/resources?page=2"⟩).2
      = ⟨"/api/resources", "/api/resources?page=2"⟩ := by
  have h := claim_C8_rebase_removes_segment ⟨true, 1⟩
    ⟨"/tenant1/api/resources", "/tenant1/api/resources?page=2"⟩ 0 rfl (by decide)
    (by decide)
  refine ⟨?_, ?_⟩
  · rw [h.1]; decide
  · have h5 := h.2.2.2.2 0 (by decide)
    have hp : (basePathResolveTenantId ⟨true, 1⟩
        ⟨"/tenant1/api/resources", "/tenant1/api/resources?page=2"⟩).2.path
        = "/api/resources" := by
      rw [h.2.1]; decide
    have hud : (basePathResolveTenantId ⟨true, 1⟩
        ⟨"/tenant1/api/resources", "/tenant1/api/resources?page=2"⟩).2.originalUrl.data
        = ("/api/resources?page=2" : String).data := by
      rw [h5.1]; decide
    have hu : (basePathResolveTenantId ⟨true, 1⟩
        ⟨"/tenant1/api/resources", "/tenant1/api/resources?page=2"⟩).2.originalUrl
        = "/api/resources?page=2" := congrArg String.mk hud
    rw [← hp, ← hu]

/-- The interleaved traversal loop of `getNestedProperty` computes the
final traversed value first and then applies the
`current?.toString() || null` coercion. -/
theorem walkPath_eq_traverseClaim (parts : List String) (v : JSValue) :
    walkPath v parts =
      match traverseClaim v parts with
      | none => none
      | some fin =>
        if fin.isNullish then none
        else if fin.toStringJS = "" then none
        else some fin.toStringJS := by
  induction parts generalizing v with
  | nil => rfl
  | cons p rest ih =>
    by_cases h : (v.isNullish || !v.isObjectTypeof) = true
    · simp [walkPath, traverseClaim, h]
    · simp [walkPath, traverseClaim, h, ih]

/-- C9 counterexample: two concrete inputs where `resolveTenantId` does
NOT return the string representation of the non-null final traversed
value. (1) The final value is the empty string — non-null, its string
representation is `""` — yet the strategy returns null (the `|| null`
at `strategies.ts` line 368 maps the empty string to null). (2) With
the empty claim path (which dot-splits to `[""]`) and a payload owning
a non-null `""` property, the final traversed value is that property —
yet the strategy returns null (the `!path` guard at line 355). -/
theorem claim_C9_coercion_counterexample :
    (traverseClaim (.vObj [("tenantId", .vStr "")]) ["tenantId"]
        = some (.vStr "")
      ∧ JSValue.isNullish (.vStr "") = false
      ∧ claimResolveTenantId
          (fun _ : ClaimRequest => .vObj [("tenantId", .vStr "")])
          "tenantId" ⟨none⟩ = none
      ∧ claimResolveTenantId
          (fun _ : ClaimRequest => .vObj [("tenantId", .vStr "")])
          "tenantId" ⟨none⟩ ≠ some (JSValue.toStringJS (.vStr "")))
    ∧ ((splitOnChar '.' ("" : String).data).map String.mk = [""]
      ∧ traverseClaim (.vObj [("", .vStr "x")]) [""] = some (.vStr "x")
      ∧ JSValue.isNullish (.vStr "x") = false
      ∧ JSValue.toStringJS (.vStr "x") = "x"
      ∧ claimResolveTenantId
          (fun _ : ClaimRequest => .vObj [("", .vStr "x")])
          "" ⟨none⟩ = none
      ∧ claimResolveTenantId
          (fun _ : ClaimRequest => .vObj [("", .vStr "x")])
          "" ⟨none⟩ ≠ some (JSValue.toStringJS (.vStr "x"))) := by
  refine ⟨⟨rfl, rfl, rfl, ?_⟩, rfl, rfl, rfl, rfl, rfl, ?_⟩
  · intro h; exact Option.noConfusion h
  · intro h; exact Option.noConfusion h

/-- C9 amended: for every extractor, claim path and request,
`resolveTenantId` returns null when the payload is falsy or the claim
path is the empty string; otherwise it returns the final traversed
value of the dot-split path coerced to its string representation when
that value is non-null and the representation is non-empty, and null
when any intermediate traversal step yields a nullish or non-object
value, the final value is null/undefined, or its string representation
is empty — no exception escapes in any of these cases. With the default
extractor the payload is absent — hence the result is null — whenever
there is no Authorization header, the header does not carry the Bearer
scheme, or the token's payload segment fails to decode. -/
theorem claim_C9_traversal_coercion {Req : Type} (extractor : Req → JSValue)
    (claimPath : String) (req : Req) :
    (claimResolveTenantId extractor claimPath req =
      if (extractor req).isFalsy || claimPath = "" then none
      else
        match traverseClaim (extractor req)
            ((splitOnChar '.' claimPath.data).map String.mk) with
        | none => none
        | some fin =>
          if fin.isNullish then none
          else if fin.toStringJS = "" then none
          else some fin.toStringJS)
    ∧ ∀ (dec : String → Option JSValue) (creq : ClaimRequest),
        (creq.authorization = none
          ∨ (∃ h, creq.authorization = some h
              ∧ "Bearer ".data.isPrefixOf h.data = false)
          ∨ (∃ h token seg, creq.authorization = some h
              ∧ ((splitOnChar ' ' h.data).map String.mk).get? 1 = some token
              ∧ ((splitOnChar '.' token.data).map String.mk).get? 1 = some seg
              ∧ dec seg = none)) →
        claimResolveTenantId (defaultAuthExtractor dec) claimPath creq = none := by
  constructor
  · unfold claimResolveTenantId getNestedProperty
    by_cases hf : (extractor req).isFalsy = true
    · simp [hf]
    · by_cases hp : claimPath = ""
      · simp [hf, hp]
      · simp [hf, hp, walkPath_eq_traverseClaim]
  · intro dec creq hcase
    have hnull : defaultAuthExtractor dec creq = .vNull := by
      rcases hcase with hnone | ⟨h, hsome, hpref⟩ | ⟨h, token, seg, hsome, htok, hseg, hdec⟩
      · unfold defaultAuthExtractor
        rw [hnone]
      · unfold defaultAuthExtractor
        rw [hsome]
        simp [hpref]
      · unfold defaultAuthExtractor
        rw [hsome]
        by_cases hpref : "Bearer ".data.isPrefixOf h.data = true
        · simp only [hpref, Bool.not_true, Bool.false_eq_true, if_false, htok]
          by_cases htok0 : token = ""
          · simp [htok0]
          · have hseg' : Option.map String.mk (splitOnChar '.' token.data)[1]?
                = some seg := by simpa using hseg
            simp [htok0, hseg', hdec]
        · simp [hpref]
    rw [claimResolveTenantId, hnull]
    simp [JSValue.isFalsy]

/-- C9 amended witness: a nested claim path resolving through a
matching payload yields the nested value, and a non-Bearer
Authorization header with the default extractor yields null. -/
theorem claim_C9_traversal_coercion_witness :
    claimResolveTenantId
        (fun _ : ClaimRequest =>
          .vObj [("app_metadata", .vObj [("tenant_id", .vStr "tenant1")])])
        "app_metadata.tenant_id" (⟨none⟩ : ClaimRequest) = some "tenant1"
    ∧ claimResolveTenantId (defaultAuthExtractor (fun _ => none)) "tenantId"
        (⟨some "Basic abc"⟩ : ClaimRequest) = none := by
  constructor
  · have h := (claim_C9_traversal_coercion
      (fun _ : ClaimRequest =>
        .vObj [("app_metadata", .vObj [("tenant_id", .vStr "tenant1")])])
      "app_metadata.tenant_id" (⟨none⟩ : ClaimRequest)).1
    rw [h]
    rfl
  · exact (claim_C9_traversal_coercion
      (fun _ : ClaimRequest => JSValue.vNull) "tenantId"
      (⟨some "Basic abc"⟩ : ClaimRequest)).2 (fun _ => none) ⟨some "Basic abc"⟩
      (Or.inr (Or.inl ⟨"Basic abc", rfl, by decide⟩))

/-- C10 witness at a concrete input. -/
theorem claim_C10_handler_channel_unset_witness :
    (runMultitenancy ⟨[.ok (some "gone")],
        fun _ => StoreResult.notFound (T := Tenant), true⟩).channel = none
    ∧ (runMultitenancy ⟨[.ok (some "gone")],
        fun _ => StoreResult.notFound (T := Tenant), true⟩).handlerCall = some "gone"
    ∧ ∀ (cfg' : MWConfig Tenant), (runMultitenancy cfg').handlerCall = none →
        (runMultitenancy cfg').channel ≠ none :=
  claim_C10_handler_channel_unset
    ⟨[.ok (some "gone")], fun _ => StoreResult.notFound, true⟩
    "gone" (by decide) rfl rfl

end Multitenancy
